import Mathlib

/-!
Verification of the two developer-tooling scripts in this repository:
`prelude-si/deno/deno_test.py` (a Deno test-runner adapter) and
`prelude-si/git/git_info.py` (a git version-metadata generator).

The Python scripts are shallowly embedded: every function of the source is
translated into an executable Lean definition.  External collaborators
(`os.path.abspath`, `os.path.exists`, `subprocess.run`, `json.loads`, the
wall clock and the local time zone) are passed in as explicit parameters,
exactly at the granularity the scripts consume them.  Exceptions are
modelled with `Option`/`Except`.
-/

namespace DenoTest

/-- Result of a `subprocess.run` invocation as the adapter sees it:
the exit code and the (optionally captured) stdout/stderr streams.
`deno_test.py` runs the process without `capture_output`, in which case
Python leaves both streams as `None`; keeping them `Option` lets the
embedding stay faithful to the `if e.stdout:` / `if e.stderr:` tests in
the source. -/
structure ProcResult where
  returncode : Int
  stdout : Option String
  stderr : Option String

/-- The environment the adapter's `main` touches: `os.path.abspath`,
`os.path.exists` and the external process layer.  The process layer is a
function from the command line to the result, so one run of the model
makes exactly the calls the script would make. -/
structure DenoEnv where
  abspath : String → String
  pathExists : String → Bool
  run : List String → ProcResult

/-- Python truthiness of an `str | None` value: `None` and `""` are falsy. -/
def pyTruthyOptStr : Option String → Bool
  | none => false
  | some s => !s.isEmpty

/-- The command-line construction of `run_tests`
(`deno_test.py`, lines 49-63), translated clause by clause:
base command, `if filter_pattern:` (truthiness), one `--ignore=` per
entry, `--parallel`, `--watch`, then the input paths. -/
def run_tests_cmd (input_paths : List String) (filter_pattern : Option String)
    (ignore_paths : List String) (parallel watch : Bool) : List String :=
  let cmd := ["deno", "test"]
  let cmd := if pyTruthyOptStr filter_pattern then
    cmd ++ ["--filter", filter_pattern.getD ""] else cmd
  let cmd := cmd ++ ignore_paths.map (fun i => "--ignore=" ++ i)
  let cmd := if parallel then cmd ++ ["--parallel"] else cmd
  let cmd := if watch then cmd ++ ["--watch"] else cmd
  cmd ++ input_paths

/-- Observable effects of one run of the adapter: the external calls made,
the lines printed to stdout and the lines printed to stderr. -/
structure RunLog where
  calls : List (List String)
  outLines : List String
  errLines : List String
deriving DecidableEq

/-- `str(subprocess.CalledProcessError)`, the message `main` prints when
the re-raised error reaches its top-level handler.  (Python renders the
command with `repr`; the exact quoting is immaterial here.) -/
def calledProcessErrorMsg (cmd : List String) (rc : Int) : String :=
  "Command " ++ toString cmd ++ " returned non-zero exit status " ++ toString rc ++ "."

/-- `run_tests` (`deno_test.py`, lines 41-77): builds the command, runs it
once, and on non-zero exit prints the diagnostic block to stderr and
re-raises.  Returns the log of effects plus the raised exception message,
`none` on success. -/
def run_tests (run : List String → ProcResult) (input_paths : List String)
    (filter_pattern : Option String) (ignore_paths : List String)
    (parallel watch : Bool) : RunLog × Option String :=
  let cmd := run_tests_cmd input_paths filter_pattern ignore_paths parallel watch
  let result := run cmd
  if result.returncode = 0 then
    let outs := match result.stdout with
      | some s => if !s.isEmpty then [s] else []
      | none => []
    (⟨[cmd], outs, []⟩, none)
  else
    let errs := ["Error running deno test:",
        "Command: " ++ String.intercalate " " cmd,
        "Exit code: " ++ toString result.returncode]
      ++ (match result.stdout with
          | some s => if !s.isEmpty then ["stdout: " ++ s] else []
          | none => [])
      ++ (match result.stderr with
          | some s => if !s.isEmpty then ["stderr: " ++ s] else []
          | none => [])
    (⟨[cmd], [], errs⟩, some (calledProcessErrorMsg cmd result.returncode))

/-- The input-path loop of `main` (`deno_test.py`, lines 84-91): resolve
each path with `abspath` in order; on the first path that does not exist,
report it (the error value) and stop. -/
def resolveInputs (env : DenoEnv) : List String → Except String (List String)
  | [] => Except.ok []
  | p :: rest =>
    let abs_path := env.abspath p
    if env.pathExists abs_path then
      (resolveInputs env rest).map (fun l => abs_path :: l)
    else Except.error abs_path

/-- `main` (`deno_test.py`, lines 80-101): validate and resolve the
inputs, run the tests, print the confirmation line, and map any raised
exception to the `Error: ...` line and exit code 1. -/
def denoMain (env : DenoEnv) (inputs : List String) (filter_pattern : Option String)
    (ignore_paths : List String) (parallel watch : Bool) : RunLog × Int :=
  match resolveInputs env inputs with
  | Except.error missing =>
    (⟨[], [], ["Error: Input path not found: " ++ missing]⟩, 1)
  | Except.ok input_paths =>
    match run_tests env.run input_paths filter_pattern ignore_paths parallel watch with
    | (log, none) =>
      (⟨log.calls, log.outLines ++ ["Tests completed successfully."], log.errLines⟩, 0)
    | (log, some msg) =>
      (⟨log.calls, log.outLines, log.errLines ++ ["Error: " ++ msg]⟩, 1)

theorem resolveInputs_all_exist (env : DenoEnv) (inputs : List String)
    (h : ∀ p ∈ inputs, env.pathExists (env.abspath p) = true) :
    resolveInputs env inputs = Except.ok (inputs.map env.abspath) := by
  induction inputs with
  | nil => rfl
  | cons p rest ih =>
    have hp := h p (List.mem_cons_self p rest)
    have hrest := ih (fun q hq => h q (List.mem_cons_of_mem p hq))
    simp [resolveInputs, hp, hrest, Except.map]

theorem resolveInputs_missing (env : DenoEnv) (inputs : List String)
    (h : ∃ p ∈ inputs, env.pathExists (env.abspath p) = false) :
    ∃ q ∈ inputs, env.pathExists (env.abspath q) = false ∧
      resolveInputs env inputs = Except.error (env.abspath q) := by
  induction inputs with
  | nil => simp at h
  | cons p rest ih =>
    by_cases hp : env.pathExists (env.abspath p) = true
    · have hrest : ∃ q ∈ rest, env.pathExists (env.abspath q) = false := by
        rcases h with ⟨q, hq, hqf⟩
        rcases List.mem_cons.mp hq with rfl | hq'
        · rw [hp] at hqf; cases hqf
        · exact ⟨q, hq', hqf⟩
      rcases ih hrest with ⟨q, hq, hqf, heq⟩
      refine ⟨q, List.mem_cons_of_mem p hq, hqf, ?_⟩
      simp [resolveInputs, hp, heq, Except.map]
    · have hp' : env.pathExists (env.abspath p) = false := by
        cases hx : env.pathExists (env.abspath p) with
        | true => exact absurd hx hp
        | false => rfl
      exact ⟨p, List.mem_cons_self p rest, hp', by simp [resolveInputs, hp']⟩

theorem run_tests_calls (run : List String → ProcResult) (ip : List String)
    (filt : Option String) (ign : List String) (par wat : Bool) :
    (run_tests run ip filt ign par wat).1.calls = [run_tests_cmd ip filt ign par wat] := by
  unfold run_tests
  by_cases h : (run (run_tests_cmd ip filt ign par wat)).returncode = 0 <;>
    simp only [h, if_true, if_false, reduceIte]

/-- The filter block of the fixed command-line contract: the pair
of the filter flag and the pattern when a filter is present, nothing
otherwise. -/
def filterBlock : Option String → List String
  | none => []
  | some f => ["--filter", f]

theorem run_tests_cmd_spec_shape (ip : List String) (filt : Option String)
    (ign : List String) (par wat : Bool) (hf : filt ≠ some "") :
    run_tests_cmd ip filt ign par wat =
      ["deno", "test"]
      ++ filterBlock filt
      ++ ign.map (fun i => "--ignore=" ++ i)
      ++ (if par then ["--parallel"] else [])
      ++ (if wat then ["--watch"] else [])
      ++ ip := by
  cases filt with
  | none => cases par <;> cases wat <;> simp [run_tests_cmd, pyTruthyOptStr, filterBlock]
  | some f =>
    have hf' : ¬(f = "") := fun h => hf (by rw [h])
    have hne : f.isEmpty = false := by
      cases hfe : f.isEmpty with
      | false => rfl
      | true => exact absurd ((String.isEmpty_iff f).mp hfe) hf'
    cases par <;> cases wat <;> simp [run_tests_cmd, pyTruthyOptStr, filterBlock, hne]

/-- C1: for every test invocation request whose input paths all exist (and
whose optional filter, when supplied, is non-empty — the empty-string case
is the subject of C10), the adapter makes exactly one external call, whose
command line is exactly: the base command, the filter flag pair if
present, one ignore flag per entry in order, the parallel flag if set, the
watch flag if set, then the absolute-resolved input paths in order. -/
theorem denoMain_calls_cmd_order (env : DenoEnv) (inputs : List String)
    (filt : Option String) (ign : List String) (par wat : Bool)
    (hex : ∀ p ∈ inputs, env.pathExists (env.abspath p) = true)
    (hf : filt ≠ some "") :
    (denoMain env inputs filt ign par wat).1.calls =
      [["deno", "test"]
        ++ filterBlock filt
        ++ ign.map (fun i => "--ignore=" ++ i)
        ++ (if par then ["--parallel"] else [])
        ++ (if wat then ["--watch"] else [])
        ++ inputs.map env.abspath] := by
  have hres := resolveInputs_all_exist env inputs hex
  have hshape := run_tests_cmd_spec_shape (inputs.map env.abspath) filt ign par wat hf
  have hcalls := run_tests_calls env.run (inputs.map env.abspath) filt ign par wat
  unfold denoMain
  rw [hres]
  rcases hrun : run_tests env.run (inputs.map env.abspath) filt ign par wat with ⟨log, exc⟩
  rw [hrun] at hcalls
  dsimp only
  rw [hrun]
  cases exc <;> · dsimp only; rw [hcalls, hshape]

/-- Concrete environment for witnesses: every path exists, the external
process succeeds silently. -/
def envAllOk : DenoEnv :=
  ⟨fun p => "/abs/" ++ p, fun _ => true, fun _ => ⟨0, none, none⟩⟩

/-- Concrete environment for witnesses: no path exists. -/
def envMissing : DenoEnv :=
  ⟨fun p => "/abs/" ++ p, fun _ => false, fun _ => ⟨0, none, none⟩⟩

/-- Concrete environment for witnesses: every path exists, the external
process fails with exit code 1 and captured streams. -/
def envFail : DenoEnv :=
  ⟨fun p => "/abs/" ++ p, fun _ => true, fun _ => ⟨1, some "out line", some "err line"⟩⟩

/-- Witness for C1, at the worked example of the spec: inputs
a.ts and b.ts, filter foo, ignore x and y, parallel set, watch unset. -/
theorem denoMain_calls_cmd_order_witness :
    (denoMain envAllOk ["a.ts", "b.ts"] (some "foo") ["x", "y"] true false).1.calls =
      [["deno", "test", "--filter", "foo", "--ignore=x", "--ignore=y",
        "--parallel", "/abs/a.ts", "/abs/b.ts"]] := by
  have h := denoMain_calls_cmd_order envAllOk ["a.ts", "b.ts"] (some "foo")
    ["x", "y"] true false (fun p _ => rfl) (by simp)
  simpa [envAllOk] using h

/-- C2: whenever at least one input path does not exist, the adapter
exits with status 1, makes no external call, and reports a missing path
(its absolute resolution) on stderr. -/
theorem denoMain_missing_input (env : DenoEnv) (inputs : List String)
    (filt : Option String) (ign : List String) (par wat : Bool)
    (h : ∃ p ∈ inputs, env.pathExists (env.abspath p) = false) :
    (denoMain env inputs filt ign par wat).2 = 1 ∧
    (denoMain env inputs filt ign par wat).1.calls = [] ∧
    ∃ p ∈ inputs, env.pathExists (env.abspath p) = false ∧
      ("Error: Input path not found: " ++ env.abspath p) ∈
        (denoMain env inputs filt ign par wat).1.errLines := by
  rcases resolveInputs_missing env inputs h with ⟨q, hq, hqf, heq⟩
  unfold denoMain
  rw [heq]
  exact ⟨rfl, rfl, q, hq, hqf, by simp⟩

/-- Witness for C2: the single input a.ts with a filesystem on which no
path exists. -/
theorem denoMain_missing_input_witness :
    (denoMain envMissing ["a.ts"] none [] false false).2 = 1 ∧
    (denoMain envMissing ["a.ts"] none [] false false).1.calls = [] ∧
    ∃ p ∈ ["a.ts"], envMissing.pathExists (envMissing.abspath p) = false ∧
      ("Error: Input path not found: " ++ envMissing.abspath p) ∈
        (denoMain envMissing ["a.ts"] none [] false false).1.errLines :=
  denoMain_missing_input envMissing ["a.ts"] none [] false false ⟨"a.ts", by simp, rfl⟩

/-- C6: when the external test invocation exits non-zero, the adapter
prints to stderr the fixed label, the full command line, the exit code,
and each captured non-empty stream of the failed invocation, makes
exactly one external call (no retry) and exits with code 1. -/
theorem denoMain_failed_run (env : DenoEnv) (inputs : List String)
    (filt : Option String) (ign : List String) (par wat : Bool)
    (hex : ∀ p ∈ inputs, env.pathExists (env.abspath p) = true)
    (hrc : ¬(env.run (run_tests_cmd (inputs.map env.abspath) filt ign par wat)).returncode = 0) :
    (denoMain env inputs filt ign par wat).2 = 1 ∧
    (denoMain env inputs filt ign par wat).1.calls
      = [run_tests_cmd (inputs.map env.abspath) filt ign par wat] ∧
    "Error running deno test:" ∈ (denoMain env inputs filt ign par wat).1.errLines ∧
    ("Command: " ++ String.intercalate " "
        (run_tests_cmd (inputs.map env.abspath) filt ign par wat)) ∈
      (denoMain env inputs filt ign par wat).1.errLines ∧
    ("Exit code: " ++ toString
        (env.run (run_tests_cmd (inputs.map env.abspath) filt ign par wat)).returncode) ∈
      (denoMain env inputs filt ign par wat).1.errLines ∧
    (∀ s, (env.run (run_tests_cmd (inputs.map env.abspath) filt ign par wat)).stdout = some s →
      ¬s = "" → ("stdout: " ++ s) ∈ (denoMain env inputs filt ign par wat).1.errLines) ∧
    (∀ s, (env.run (run_tests_cmd (inputs.map env.abspath) filt ign par wat)).stderr = some s →
      ¬s = "" → ("stderr: " ++ s) ∈ (denoMain env inputs filt ign par wat).1.errLines) := by
  have hres := resolveInputs_all_exist env inputs hex
  unfold denoMain run_tests
  rw [hres]
  dsimp only
  rw [if_neg hrc]
  dsimp only
  refine ⟨rfl, rfl, by simp, by simp, by simp, ?_, ?_⟩
  · intro s hs hne
    have hie : s.isEmpty = false := by
      cases hfe : s.isEmpty with
      | false => rfl
      | true => exact absurd ((String.isEmpty_iff s).mp hfe) hne
    rw [hs]
    simp [hie]
  · intro s hs hne
    have hie : s.isEmpty = false := by
      cases hfe : s.isEmpty with
      | false => rfl
      | true => exact absurd ((String.isEmpty_iff s).mp hfe) hne
    rw [hs]
    simp [hie]

/-- Witness for C6: one existing input, an external process failing with
exit code 1 and captured streams. -/
theorem denoMain_failed_run_witness :
    (denoMain envFail ["a.ts"] none [] false false).2 = 1 ∧
    (denoMain envFail ["a.ts"] none [] false false).1.calls
      = [run_tests_cmd (["a.ts"].map envFail.abspath) none [] false false] ∧
    "Error running deno test:" ∈ (denoMain envFail ["a.ts"] none [] false false).1.errLines ∧
    ("Command: " ++ String.intercalate " "
        (run_tests_cmd (["a.ts"].map envFail.abspath) none [] false false)) ∈
      (denoMain envFail ["a.ts"] none [] false false).1.errLines ∧
    ("Exit code: " ++ toString
        (envFail.run (run_tests_cmd (["a.ts"].map envFail.abspath) none [] false false)).returncode) ∈
      (denoMain envFail ["a.ts"] none [] false false).1.errLines ∧
    (∀ s, (envFail.run (run_tests_cmd (["a.ts"].map envFail.abspath) none [] false false)).stdout = some s →
      ¬s = "" → ("stdout: " ++ s) ∈ (denoMain envFail ["a.ts"] none [] false false).1.errLines) ∧
    (∀ s, (envFail.run (run_tests_cmd (["a.ts"].map envFail.abspath) none [] false false)).stderr = some s →
      ¬s = "" → ("stderr: " ++ s) ∈ (denoMain envFail ["a.ts"] none [] false false).1.errLines) :=
  denoMain_failed_run envFail ["a.ts"] none [] false false (fun p _ => rfl) (by decide)

/-- C10: an empty-string filter produces exactly the command an absent
filter produces — the filter flag is omitted, because the source tests
the filter by truthiness, not by a None check. -/
theorem run_tests_cmd_empty_filter (ip : List String) (ign : List String)
    (par wat : Bool) :
    run_tests_cmd ip (some "") ign par wat = run_tests_cmd ip none ign par wat := rfl

end DenoTest

namespace GitInfo

/-- JSON values occurring in the metadata record of `git_info.py`:
strings, booleans and integers.  (`round` of a timestamp is a Python
int; the model works at whole-second resolution, where `round` is the
identity.) -/
inductive JVal where
  | jstr (s : String)
  | jbool (b : Bool)
  | jint (n : Int)
deriving DecidableEq, Repr

/-- A Python dict with string keys, as an insertion-ordered association
list — the shape `git_info.py` builds its metadata record in. -/
abbrev Dict := List (String × JVal)

/-- Python `d[k] = v` semantics: overwriting an existing key keeps its
position, a new key is appended. -/
def dictSet (d : Dict) (k : String) (v : JVal) : Dict :=
  if d.any (fun p => p.1 == k) then
    d.map (fun p => if p.1 == k then (k, v) else p)
  else d ++ [(k, v)]

/-- Python `d.update(kvs)`: assign each pair in order. -/
def dictUpdate (d : Dict) (kvs : Dict) : Dict :=
  kvs.foldl (fun acc kv => dictSet acc kv.1 kv.2) d

/-- Python `d.get(k)`: the value at the first (unique) occurrence of the
key, if any. -/
def dictGet (d : Dict) (k : String) : Option JVal :=
  (d.find? (fun p => p.1 == k)).map (fun p => p.2)

def ABBREVIATED_COMMIT_HASH : String := "abbreviated_commit_hash"
def CAL_VER : String := "cal_ver"
def ARTIFACT_VER : String := "artifact_ver"
def COMMITER_DATE_STRICT : String := "committer_date_strict_iso8601"
def COMMITER_DATE_TIMESTAMP : String := "committer_date_timestamp"
def COMMIT_HASH : String := "commit_hash"
def IS_DIRTY : String := "is_dirty"

/-- Python truthiness of a string (or of the bytes of a captured
stream): non-empty is truthy. -/
def pyTruthy (s : String) : Bool := !s.isEmpty

/-- Python truthiness of `d.get(k)`: `None` is falsy, a string is truthy
iff non-empty, a bool is itself, an int is truthy iff non-zero. -/
def jvalTruthy : Option JVal → Bool
  | none => false
  | some (JVal.jstr s) => !s.isEmpty
  | some (JVal.jbool b) => b
  | some (JVal.jint n) => !(n == 0)

/-- Python `x == True` on a `d.get` result (`None == True` is `False`;
`1 == True` is `True` by bool/int unification). -/
def pyEqTrue : Option JVal → Bool
  | some (JVal.jbool b) => b
  | some (JVal.jint n) => n == 1
  | _ => false

/-- A `datetime.datetime` at whole-second resolution: civil fields plus
an optional fixed UTC offset in seconds (`none` = naive, as
`datetime.utcnow()` returns). -/
structure PyDateTime where
  year : Nat
  month : Nat
  day : Nat
  hour : Nat
  minute : Nat
  second : Nat
  tzOffset : Option Int
deriving DecidableEq, Repr

/-- Days from 1970-01-01 of a proleptic-Gregorian civil date
(year ≥ 1, 1 ≤ month ≤ 12, 1 ≤ day). -/
def daysFromCivil (y m d : Nat) : Int :=
  let y' := if m ≤ 2 then y - 1 else y
  let era := y' / 400
  let yoe := y' - era * 400
  let mp := if m > 2 then m - 3 else m + 9
  let doy := (153 * mp + 2) / 5 + d - 1
  let doe := yoe * 365 + yoe / 4 - yoe / 100 + doy
  (era : Int) * 146097 + (doe : Int) - 719468

/-- Civil date (year, month, day) of a day count from 1970-01-01; valid
for dates from year 1 on. -/
def civilFromDays (z : Int) : Nat × Nat × Nat :=
  let z' := (z + 719468).toNat
  let era := z' / 146097
  let doe := z' % 146097
  let yoe := (doe - doe / 1460 + doe / 36524 - doe / 146096) / 365
  let y := yoe + era * 400
  let doy := doe - (365 * yoe + yoe / 4 - yoe / 100)
  let mp := (5 * doy + 2) / 153
  let d := doy - (153 * mp + 2) / 5 + 1
  let m := if mp < 10 then mp + 3 else mp - 9
  (if m ≤ 2 then y + 1 else y, m, d)

/-- `datetime.timestamp()` at whole-second resolution: an aware datetime
converts with its own offset; a naive one is assumed to be local time,
in a local zone at fixed offset `localOff` seconds east of UTC. -/
def toEpoch (dt : PyDateTime) (localOff : Int) : Int :=
  daysFromCivil dt.year dt.month dt.day * 86400
    + ((dt.hour * 3600 + dt.minute * 60 + dt.second : Nat) : Int)
    - dt.tzOffset.getD localOff

/-- The aware UTC datetime of an epoch instant. -/
def epochToUtc (e : Int) : PyDateTime :=
  let sod := (e.emod 86400).toNat
  let c := civilFromDays (e.ediv 86400)
  ⟨c.1, c.2.1, c.2.2, sod / 3600, sod % 3600 / 60, sod % 60, some 0⟩

/-- `datetime.utcnow()` when the true current instant is `nowEpoch`
epoch seconds: the UTC civil fields, with no timezone attached. -/
def datetime_utcnow (nowEpoch : Int) : PyDateTime :=
  { epochToUtc nowEpoch with tzOffset := none }

/-- `dt.astimezone(timezone.utc)`: reinterpret at UTC; a naive `dt` is
assumed to be local time at offset `localOff`. -/
def astimezone_utc (dt : PyDateTime) (localOff : Int) : PyDateTime :=
  epochToUtc (toEpoch dt localOff)

/-- Zero-pad a number to a given width, as `strftime` does. -/
def padZeros (w n : Nat) : String :=
  let s := toString n
  String.mk (List.replicate (w - s.length) '0') ++ s

/-- `dt.strftime("%Y%m%d.%H%M%S.0")`. -/
def strftime_cal_ver (dt : PyDateTime) : String :=
  padZeros 4 dt.year ++ padZeros 2 dt.month ++ padZeros 2 dt.day ++ "."
    ++ padZeros 2 dt.hour ++ padZeros 2 dt.minute ++ padZeros 2 dt.second ++ ".0"

/-- `dt.strftime("%Y%m%dT%H:%M:%SZ")`. -/
def strftime_iso_z (dt : PyDateTime) : String :=
  padZeros 4 dt.year ++ padZeros 2 dt.month ++ padZeros 2 dt.day ++ "T"
    ++ padZeros 2 dt.hour ++ ":" ++ padZeros 2 dt.minute ++ ":" ++ padZeros 2 dt.second ++ "Z"

def digitVal (c : Char) : Option Nat :=
  if c.isDigit then some (c.toNat - 48) else none

/-- Parse exactly `k` decimal digits (accumulator-passing). -/
def parseFixed : Nat → Nat → List Char → Option (Nat × List Char)
  | 0, acc, cs => some (acc, cs)
  | k + 1, acc, c :: cs =>
    match digitVal c with
    | some v => parseFixed k (acc * 10 + v) cs
    | none => none
  | _ + 1, _, [] => none

def expectChar (c : Char) : List Char → Option (List Char)
  | x :: rest => if x == c then some rest else none
  | [] => none

/-- `datetime.fromisoformat`, on the strict ISO-8601 shapes the script
can receive from the git committer date (`%cI`):
`YYYY-MM-DDTHH:MM:SS` followed by nothing (naive), `Z`, or a
`±HH:MM` offset.  Returns `none` on any other input (Python raises
`ValueError`). -/
def fromisoformat (str : String) : Option PyDateTime := do
  let cs := str.toList
  let (y, cs) ← parseFixed 4 0 cs
  let cs ← expectChar '-' cs
  let (mo, cs) ← parseFixed 2 0 cs
  let cs ← expectChar '-' cs
  let (d, cs) ← parseFixed 2 0 cs
  let cs ← expectChar 'T' cs
  let (h, cs) ← parseFixed 2 0 cs
  let cs ← expectChar ':' cs
  let (mi, cs) ← parseFixed 2 0 cs
  let cs ← expectChar ':' cs
  let (sec, cs) ← parseFixed 2 0 cs
  if 1 ≤ mo ∧ mo ≤ 12 ∧ 1 ≤ d ∧ d ≤ 31 ∧ h ≤ 23 ∧ mi ≤ 59 ∧ sec ≤ 59 then
    match cs with
    | [] => some ⟨y, mo, d, h, mi, sec, none⟩
    | ['Z'] => some ⟨y, mo, d, h, mi, sec, some 0⟩
    | '+' :: rest => do
      let (oh, rest) ← parseFixed 2 0 rest
      let rest ← expectChar ':' rest
      let (om, rest) ← parseFixed 2 0 rest
      match rest with
      | [] => some ⟨y, mo, d, h, mi, sec, some ((oh * 3600 + om * 60 : Nat) : Int)⟩
      | _ => none
    | '-' :: rest => do
      let (oh, rest) ← parseFixed 2 0 rest
      let rest ← expectChar ':' rest
      let (om, rest) ← parseFixed 2 0 rest
      match rest with
      | [] => some ⟨y, mo, d, h, mi, sec, some (-((oh * 3600 + om * 60 : Nat) : Int))⟩
      | _ => none
    | _ => none
  else
    none

/-- `finalize` (`git_info.py`, lines 82-102), parameterised by the true
current instant `nowEpoch` (epoch seconds) and the local-zone UTC offset
`localOff` (seconds).  `none` models an uncaught exception (a
`ValueError` from `fromisoformat`, a `TypeError`, or a `KeyError` on the
final lookups). -/
def finalize (nowEpoch localOff : Int) (data : Dict) : Option Dict :=
  let dt_str := dictGet data COMMITER_DATE_STRICT
  let is_dirty := dictGet data IS_DIRTY
  if jvalTruthy dt_str then
    let odt : Option PyDateTime :=
      if pyEqTrue is_dirty then
        some (datetime_utcnow nowEpoch)
      else
        match dt_str with
        | some (JVal.jstr sdt) => (fromisoformat sdt).map (fun dt => astimezone_utc dt localOff)
        | _ => none
    match odt with
    | none => none
    | some dt_utc =>
      let data1 := dictUpdate data
        [(CAL_VER, JVal.jstr (strftime_cal_ver dt_utc)),
         (COMMITER_DATE_STRICT, JVal.jstr (strftime_iso_z dt_utc)),
         (COMMITER_DATE_TIMESTAMP, JVal.jint (toEpoch dt_utc localOff))]
      match dictGet data1 CAL_VER, dictGet data1 ABBREVIATED_COMMIT_HASH with
      | some (JVal.jstr cv), some (JVal.jstr ah) =>
        some (dictUpdate data1 [(ARTIFACT_VER, JVal.jstr (cv ++ "-sha" ++ ah))])
      | _, _ => none
  else
    some data

/-- Result of a `subprocess.run(..., capture_output=True)` call: exit
code and the captured streams. -/
structure CapturedProc where
  returncode : Int
  stdout : String
  stderr : String

/-- The exceptions `git_info.py` can die of. -/
inductive PyError where
  | calledProcess (rc : Int)
  | jsonDecode
  | valueOrKeyOrTypeError
deriving DecidableEq, Repr

/-- `result.check_returncode()`: raises `CalledProcessError` on a
non-zero exit. -/
def check_returncode (res : CapturedProc) : Except PyError Unit :=
  if res.returncode = 0 then Except.ok ()
  else Except.error (PyError.calledProcess res.returncode)

/-- `parse_git_status` (`git_info.py`, lines 66-79): check the status
query's exit code, then reduce its stdout to the single `is_dirty`
field by truthiness of the captured bytes. -/
def parse_git_status (res : CapturedProc) : Except PyError Dict :=
  match check_returncode res with
  | Except.error e => Except.error e
  | Except.ok _ => Except.ok [(IS_DIRTY, JVal.jbool (pyTruthy res.stdout))]

/-- `parse_git_show` (`git_info.py`, lines 44-63): check the show
query's exit code, then `json.loads` its raw stdout.  `json.loads` is
the Python stdlib parser, taken as a parameter `jloads` returning the
parsed object's pairs, `none` on invalid JSON (a `JSONDecodeError`). -/
def parse_git_show (jloads : String → Option Dict) (res : CapturedProc) :
    Except PyError Dict :=
  match check_returncode res with
  | Except.error e => Except.error e
  | Except.ok _ =>
    match jloads res.stdout with
    | some pairs => Except.ok pairs
    | none => Except.error PyError.jsonDecode

/-- Where the JSON record is written. -/
inductive OutDest where
  | stdout
  | file (path : String)
deriving DecidableEq, Repr

/-- Lexicographic comparison of two character sequences by Unicode code
point — the order Python compares `str` keys by. -/
def charListLe : List Char → List Char → Bool
  | [], _ => true
  | _ :: _, [] => false
  | a :: as, b :: bs =>
    if a.toNat < b.toNat then true
    else if b.toNat < a.toNat then false
    else charListLe as bs

/-- Python string comparison `a <= b`: lexicographic by code point. -/
def strLe (a b : String) : Bool := charListLe a.data b.data

/-- `json.dump(data, ..., sort_keys=True)` at the level of the pair
sequence it writes: the record's pairs in ascending key order, sorted
stably by Python string comparison. -/
def json_dump_pairs (d : Dict) : Dict :=
  List.insertionSort (fun a b => strLe a.1 b.1 = true) d

/-- The results of the two git queries `main` makes. -/
structure GitEnv where
  statusResult : CapturedProc
  showResult : CapturedProc

/-- `main` (`git_info.py`, lines 20-41): status query, show query, merge
(status fields first, then show fields), finalize in place, then write
the record — to stdout when the output argument is the sentinel, else to
the named file.  Any exception on the way aborts before anything is
written. -/
def gitMain (jloads : String → Option Dict) (env : GitEnv)
    (nowEpoch localOff : Int) (output : String) : Except PyError (OutDest × Dict) :=
  match parse_git_status env.statusResult with
  | Except.error e => Except.error e
  | Except.ok statusFields =>
    let data := dictUpdate [] statusFields
    match parse_git_show jloads env.showResult with
    | Except.error e => Except.error e
    | Except.ok showFields =>
      let data := dictUpdate data showFields
      match finalize nowEpoch localOff data with
      | none => Except.error PyError.valueOrKeyOrTypeError
      | some data2 =>
        Except.ok
          (if output = "-" then OutDest.stdout else OutDest.file output,
           json_dump_pairs data2)

/-- The process outcome: exit code and the writes performed (an uncaught
exception exits the interpreter with code 1, nothing written). -/
def gitInfoRun (jloads : String → Option Dict) (env : GitEnv)
    (nowEpoch localOff : Int) (output : String) : Int × List (OutDest × Dict) :=
  match gitMain jloads env nowEpoch localOff output with
  | Except.ok w => (0, [w])
  | Except.error _ => (1, [])

/-- The merged metadata mapping the script builds before finalization:
the status field first, then the three show fields (the shape the
format string passed to the show query guarantees). -/
def mergedGitData (statusOut h d H : String) : Dict :=
  dictUpdate (dictUpdate [] [(IS_DIRTY, JVal.jbool (pyTruthy statusOut))])
    [(ABBREVIATED_COMMIT_HASH, JVal.jstr h),
     (COMMITER_DATE_STRICT, JVal.jstr d),
     (COMMIT_HASH, JVal.jstr H)]

theorem mergedGitData_eq (s h d H : String) :
    mergedGitData s h d H =
      [(IS_DIRTY, JVal.jbool (pyTruthy s)),
       (ABBREVIATED_COMMIT_HASH, JVal.jstr h),
       (COMMITER_DATE_STRICT, JVal.jstr d),
       (COMMIT_HASH, JVal.jstr H)] := rfl

/-- Computation of `finalize` on a merged mapping with a truthy (non-empty)
committer date: the effective moment is the wall clock when dirty, the
parsed date converted to UTC otherwise, and on success the three derived
fields are appended (with the date field overwritten in place). -/
theorem finalize_merged_eq (nowE off : Int) (s h d H : String) (hd : ¬d = "") :
    finalize nowE off (mergedGitData s h d H) =
      (if pyTruthy s = true then some (datetime_utcnow nowE)
       else (fromisoformat d).map (fun dt => astimezone_utc dt off)).map
        (fun dt =>
          [(IS_DIRTY, JVal.jbool (pyTruthy s)),
           (ABBREVIATED_COMMIT_HASH, JVal.jstr h),
           (COMMITER_DATE_STRICT, JVal.jstr (strftime_iso_z dt)),
           (COMMIT_HASH, JVal.jstr H),
           (CAL_VER, JVal.jstr (strftime_cal_ver dt)),
           (COMMITER_DATE_TIMESTAMP, JVal.jint (toEpoch dt off)),
           (ARTIFACT_VER, JVal.jstr (strftime_cal_ver dt ++ "-sha" ++ h))]) := by
  have hne : d.isEmpty = false := by
    cases hfe : d.isEmpty with
    | false => rfl
    | true => exact absurd ((String.isEmpty_iff d).mp hfe) hd
  rw [mergedGitData_eq]
  have h1 : dictGet
      [(IS_DIRTY, JVal.jbool (pyTruthy s)),
       (ABBREVIATED_COMMIT_HASH, JVal.jstr h),
       (COMMITER_DATE_STRICT, JVal.jstr d),
       (COMMIT_HASH, JVal.jstr H)] COMMITER_DATE_STRICT = some (JVal.jstr d) := rfl
  have h2 : dictGet
      [(IS_DIRTY, JVal.jbool (pyTruthy s)),
       (ABBREVIATED_COMMIT_HASH, JVal.jstr h),
       (COMMITER_DATE_STRICT, JVal.jstr d),
       (COMMIT_HASH, JVal.jstr H)] IS_DIRTY = some (JVal.jbool (pyTruthy s)) := rfl
  simp only [finalize, h1, h2, jvalTruthy, pyEqTrue, hne, Bool.not_false, if_true]
  cases hps : pyTruthy s with
  | true =>
    simp only [if_true, Option.map]
    rfl
  | false =>
    simp only [if_false, Bool.false_eq_true]
    cases hfi : fromisoformat d with
    | none => simp only [Option.map]
    | some dt =>
      simp only [Option.map]
      rfl

/-- C3: on a clean tree, with the show response giving abbreviated hash
abc1234 and committer date 2024-01-15T10:30:00+00:00, finalization emits
exactly: is_dirty false, the two hashes unchanged, the committer date
rewritten to 20240115T10:30:00Z, cal_ver 20240115.103000.0, the
timestamp 1705314600 (that instant's epoch seconds), and artifact_ver
20240115.103000.0-shaabc1234 — independently of the wall clock and the
local time zone. -/
theorem finalize_clean_example (nowEpoch localOff : Int) (H : String) :
    finalize nowEpoch localOff
      [(IS_DIRTY, JVal.jbool false),
       (ABBREVIATED_COMMIT_HASH, JVal.jstr "abc1234"),
       (COMMITER_DATE_STRICT, JVal.jstr "2024-01-15T10:30:00+00:00"),
       (COMMIT_HASH, JVal.jstr H)] =
    some [(IS_DIRTY, JVal.jbool false),
       (ABBREVIATED_COMMIT_HASH, JVal.jstr "abc1234"),
       (COMMITER_DATE_STRICT, JVal.jstr "20240115T10:30:00Z"),
       (COMMIT_HASH, JVal.jstr H),
       (CAL_VER, JVal.jstr "20240115.103000.0"),
       (COMMITER_DATE_TIMESTAMP, JVal.jint 1705314600),
       (ARTIFACT_VER, JVal.jstr "20240115.103000.0-shaabc1234")] := by
  have hd : ¬("2024-01-15T10:30:00+00:00" : String) = "" := by decide
  have h := finalize_merged_eq nowEpoch localOff "" "abc1234"
    "2024-01-15T10:30:00+00:00" H hd
  rw [mergedGitData_eq] at h
  rw [show pyTruthy "" = false from rfl] at h
  rw [show fromisoformat "2024-01-15T10:30:00+00:00" =
    some ⟨2024, 1, 15, 10, 30, 0, some 0⟩ from rfl] at h
  rw [if_neg (by decide : ¬(false = true))] at h
  simp only [Option.map] at h
  have e1 : toEpoch (⟨2024, 1, 15, 10, 30, 0, some 0⟩ : PyDateTime) localOff
      = 1705314600 := rfl
  have e2 : astimezone_utc (⟨2024, 1, 15, 10, 30, 0, some 0⟩ : PyDateTime) localOff
      = ⟨2024, 1, 15, 10, 30, 0, some 0⟩ := by
    unfold astimezone_utc
    rw [e1]
    rfl
  rw [e2, e1] at h
  rw [h]
  rfl

/-- C4: for every merged metadata mapping, when finalization completes,
the derived fields cal_ver, committer_date_timestamp and artifact_ver
are present iff the committer date obtained was truthy (non-empty), and
a present artifact_ver is cal_ver ++ "-sha" ++ the abbreviated hash. -/
theorem finalize_derived_fields (nowE off : Int) (s h d H : String) (out : Dict)
    (hf : finalize nowE off (mergedGitData s h d H) = some out) :
    (((dictGet out CAL_VER).isSome ∧ (dictGet out COMMITER_DATE_TIMESTAMP).isSome ∧
      (dictGet out ARTIFACT_VER).isSome) ↔ ¬d = "") ∧
    (∀ av, dictGet out ARTIFACT_VER = some (JVal.jstr av) →
      ∃ cv, dictGet out CAL_VER = some (JVal.jstr cv) ∧ av = cv ++ "-sha" ++ h) := by
  by_cases hd : d = ""
  · subst hd
    have heq : finalize nowE off (mergedGitData s h "" H) = some (mergedGitData s h "" H) := by
      rw [mergedGitData_eq]; rfl
    rw [heq] at hf
    have hout : out = mergedGitData s h "" H := (Option.some.inj hf).symm
    subst hout
    constructor
    · constructor
      · rintro ⟨hc, -, -⟩
        rw [show dictGet (mergedGitData s h "" H) CAL_VER = none from rfl] at hc
        simp at hc
      · intro hne
        exact absurd rfl hne
    · intro av hav
      rw [show dictGet (mergedGitData s h "" H) ARTIFACT_VER = none from rfl] at hav
      exact Option.noConfusion hav
  · rw [finalize_merged_eq nowE off s h d H hd] at hf
    cases ho : (if pyTruthy s = true then some (datetime_utcnow nowE)
        else (fromisoformat d).map (fun dt => astimezone_utc dt off)) with
    | none =>
      rw [ho] at hf
      exact Option.noConfusion hf
    | some dt =>
      rw [ho] at hf
      simp only [Option.map] at hf
      have hout : out =
          [(IS_DIRTY, JVal.jbool (pyTruthy s)),
           (ABBREVIATED_COMMIT_HASH, JVal.jstr h),
           (COMMITER_DATE_STRICT, JVal.jstr (strftime_iso_z dt)),
           (COMMIT_HASH, JVal.jstr H),
           (CAL_VER, JVal.jstr (strftime_cal_ver dt)),
           (COMMITER_DATE_TIMESTAMP, JVal.jint (toEpoch dt off)),
           (ARTIFACT_VER, JVal.jstr (strftime_cal_ver dt ++ "-sha" ++ h))] :=
        (Option.some.inj hf).symm
      subst hout
      refine ⟨⟨fun _ => hd, fun _ => ⟨rfl, rfl, rfl⟩⟩, ?_⟩
      intro av hav
      have h3 : dictGet
          [(IS_DIRTY, JVal.jbool (pyTruthy s)),
           (ABBREVIATED_COMMIT_HASH, JVal.jstr h),
           (COMMITER_DATE_STRICT, JVal.jstr (strftime_iso_z dt)),
           (COMMIT_HASH, JVal.jstr H),
           (CAL_VER, JVal.jstr (strftime_cal_ver dt)),
           (COMMITER_DATE_TIMESTAMP, JVal.jint (toEpoch dt off)),
           (ARTIFACT_VER, JVal.jstr (strftime_cal_ver dt ++ "-sha" ++ h))] ARTIFACT_VER =
          some (JVal.jstr (strftime_cal_ver dt ++ "-sha" ++ h)) := rfl
      rw [h3] at hav
      exact ⟨strftime_cal_ver dt, rfl, (JVal.jstr.inj (Option.some.inj hav)).symm⟩

/-- The finalized record of the clean worked example, used as witness
input. -/
def cleanFinalizedExample : Dict :=
  [(IS_DIRTY, JVal.jbool false),
   (ABBREVIATED_COMMIT_HASH, JVal.jstr "abc1234"),
   (COMMITER_DATE_STRICT, JVal.jstr "20240115T10:30:00Z"),
   (COMMIT_HASH, JVal.jstr "abc1234beef"),
   (CAL_VER, JVal.jstr "20240115.103000.0"),
   (COMMITER_DATE_TIMESTAMP, JVal.jint 1705314600),
   (ARTIFACT_VER, JVal.jstr "20240115.103000.0-shaabc1234")]

/-- Witness for C4, at the clean worked example. -/
theorem finalize_derived_fields_witness :
    (((dictGet cleanFinalizedExample CAL_VER).isSome ∧
      (dictGet cleanFinalizedExample COMMITER_DATE_TIMESTAMP).isSome ∧
      (dictGet cleanFinalizedExample ARTIFACT_VER).isSome) ↔
        ¬("2024-01-15T10:30:00+00:00" : String) = "") ∧
    (∀ av, dictGet cleanFinalizedExample ARTIFACT_VER = some (JVal.jstr av) →
      ∃ cv, dictGet cleanFinalizedExample CAL_VER = some (JVal.jstr cv) ∧
        av = cv ++ "-sha" ++ "abc1234") :=
  finalize_derived_fields 0 0 "" "abc1234" "2024-01-15T10:30:00+00:00" "abc1234beef"
    cleanFinalizedExample rfl

/-- The merged mapping of a dirty tree with the worked-example show
response. -/
def dirtyMergedExample : Dict :=
  [(IS_DIRTY, JVal.jbool true),
   (ABBREVIATED_COMMIT_HASH, JVal.jstr "abc1234"),
   (COMMITER_DATE_STRICT, JVal.jstr "2024-01-15T10:30:00+00:00"),
   (COMMIT_HASH, JVal.jstr "abc1234beef")]

/-- C5 (code bug): on a dirty tree, with the finalize-time instant at
epoch 1705314600 (2024-01-15T10:30:00 UTC) and a local zone one hour
east of UTC, the formatted fields do reflect the wall-clock moment, but
`committer_date_timestamp` is 1705311000 — the wall-clock moment's epoch
minus the local offset — not 1705314600: `datetime.utcnow()` is naive,
and `.timestamp()` interprets a naive datetime as local time. -/
theorem finalize_dirty_timestamp_bug :
    finalize 1705314600 3600 dirtyMergedExample =
      some [(IS_DIRTY, JVal.jbool true),
        (ABBREVIATED_COMMIT_HASH, JVal.jstr "abc1234"),
        (COMMITER_DATE_STRICT, JVal.jstr "20240115T10:30:00Z"),
        (COMMIT_HASH, JVal.jstr "abc1234beef"),
        (CAL_VER, JVal.jstr "20240115.103000.0"),
        (COMMITER_DATE_TIMESTAMP, JVal.jint 1705311000),
        (ARTIFACT_VER, JVal.jstr "20240115.103000.0-shaabc1234")] ∧
    (1705311000 : Int) = 1705314600 - 3600 ∧
    ¬(1705311000 : Int) = 1705314600 :=
  ⟨rfl, rfl, by decide⟩

/-- C7: whenever both git queries exit 0 but the show query's raw output
is not valid JSON, the generator dies with the JSON decode error before
writing anything: exit code 1 and an empty write list. -/
theorem gitMain_invalid_json (jloads : String → Option Dict) (env : GitEnv)
    (nowE off : Int) (output : String)
    (h0 : env.statusResult.returncode = 0)
    (h1 : env.showResult.returncode = 0)
    (hj : jloads env.showResult.stdout = none) :
    gitMain jloads env nowE off output = Except.error PyError.jsonDecode ∧
    gitInfoRun jloads env nowE off output = (1, []) := by
  have hst : parse_git_status env.statusResult =
      Except.ok [(IS_DIRTY, JVal.jbool (pyTruthy env.statusResult.stdout))] := by
    unfold parse_git_status check_returncode
    rw [if_pos h0]
  have hsh : parse_git_show jloads env.showResult = Except.error PyError.jsonDecode := by
    unfold parse_git_show check_returncode
    rw [if_pos h1]
    dsimp only
    rw [hj]
  have hmain : gitMain jloads env nowE off output = Except.error PyError.jsonDecode := by
    unfold gitMain
    rw [hst]
    dsimp only
    rw [hsh]
  exact ⟨hmain, by unfold gitInfoRun; rw [hmain]⟩

/-- Concrete environment for the C7 witness: both queries exit 0, the
show query's stdout is not JSON. -/
def envBadJson : GitEnv := ⟨⟨0, "", ""⟩, ⟨0, "fatal: not json", ""⟩⟩

/-- Witness for C7, with a parser that rejects the show output. -/
theorem gitMain_invalid_json_witness :
    gitMain (fun _ => none) envBadJson 0 0 "-" = Except.error PyError.jsonDecode ∧
    gitInfoRun (fun _ => none) envBadJson 0 0 "-" = (1, []) :=
  gitMain_invalid_json (fun _ => none) envBadJson 0 0 "-" rfl rfl rfl

theorem charListLe_cons_iff (a b : Char) (as bs : List Char) :
    charListLe (a :: as) (b :: bs) = true ↔
      (a.toNat < b.toNat ∨ (a.toNat = b.toNat ∧ charListLe as bs = true)) := by
  by_cases h1 : a.toNat < b.toNat
  · simp [charListLe, h1]
  · by_cases h2 : b.toNat < a.toNat
    · simp only [charListLe, if_neg h1, if_pos h2]
      apply iff_of_false
      · simp
      · rintro (hx | ⟨hx, -⟩) <;> omega
    · have h3 : a.toNat = b.toNat := by omega
      simp [charListLe, h1, h2, h3]

theorem charListLe_total (l₁ l₂ : List Char) :
    charListLe l₁ l₂ = true ∨ charListLe l₂ l₁ = true := by
  induction l₁ generalizing l₂ with
  | nil => left; rfl
  | cons a as ih =>
    cases l₂ with
    | nil => right; rfl
    | cons b bs =>
      rcases Nat.lt_trichotomy a.toNat b.toNat with h | h | h
      · left
        rw [charListLe_cons_iff]
        exact Or.inl h
      · rcases ih bs with h2 | h2
        · left
          rw [charListLe_cons_iff]
          exact Or.inr ⟨h, h2⟩
        · right
          rw [charListLe_cons_iff]
          exact Or.inr ⟨h.symm, h2⟩
      · right
        rw [charListLe_cons_iff]
        exact Or.inl h

theorem charListLe_trans (l₁ l₂ l₃ : List Char) (h12 : charListLe l₁ l₂ = true)
    (h23 : charListLe l₂ l₃ = true) : charListLe l₁ l₃ = true := by
  induction l₁ generalizing l₂ l₃ with
  | nil => rfl
  | cons a as ih =>
    cases l₂ with
    | nil => simp [charListLe] at h12
    | cons b bs =>
      cases l₃ with
      | nil => simp [charListLe] at h23
      | cons c cs =>
        rw [charListLe_cons_iff] at h12 h23 ⊢
        rcases h12 with h12 | ⟨e12, r12⟩
        · rcases h23 with h23 | ⟨e23, r23⟩
          · exact Or.inl (by omega)
          · exact Or.inl (by omega)
        · rcases h23 with h23 | ⟨e23, r23⟩
          · exact Or.inl (by omega)
          · exact Or.inr ⟨by omega, ih bs cs r12 r23⟩

instance : IsTotal (String × JVal) (fun a b => strLe a.1 b.1 = true) :=
  ⟨fun a b => charListLe_total a.1.data b.1.data⟩

instance : IsTrans (String × JVal) (fun a b => strLe a.1 b.1 = true) :=
  ⟨fun a b c h1 h2 => charListLe_trans a.1.data b.1.data c.1.data h1 h2⟩

theorem json_dump_pairs_sorted (d : Dict) :
    List.Sorted (fun a b : String => strLe a b = true) ((json_dump_pairs d).map Prod.fst) := by
  have h := List.sorted_insertionSort (fun a b : String × JVal => strLe a.1 b.1 = true) d
  simpa [List.Sorted, List.pairwise_map, json_dump_pairs] using h

/-- C8: every successful run of the generator performs exactly one
write, whose record's keys are in ascending (lexicographic) order
whatever order the fields were built in, and whose destination is stdout
iff the output argument is the sentinel, else the named file. -/
theorem gitMain_output_sorted (jloads : String → Option Dict) (env : GitEnv)
    (nowE off : Int) (output : String) (dest : OutDest) (out : Dict)
    (h : gitMain jloads env nowE off output = Except.ok (dest, out)) :
    List.Sorted (fun a b : String => strLe a b = true) (out.map Prod.fst) ∧
    dest = (if output = "-" then OutDest.stdout else OutDest.file output) ∧
    gitInfoRun jloads env nowE off output = (0, [(dest, out)]) := by
  have hrun : gitInfoRun jloads env nowE off output = (0, [(dest, out)]) := by
    unfold gitInfoRun
    rw [h]
  unfold gitMain at h
  cases hst : parse_git_status env.statusResult with
  | error e => rw [hst] at h; exact Except.noConfusion h
  | ok st =>
    rw [hst] at h
    dsimp only at h
    cases hsh : parse_git_show jloads env.showResult with
    | error e => rw [hsh] at h; exact Except.noConfusion h
    | ok sh =>
      rw [hsh] at h
      dsimp only at h
      cases hfin : finalize nowE off (dictUpdate (dictUpdate [] st) sh) with
      | none => rw [hfin] at h; exact Except.noConfusion h
      | some d2 =>
        rw [hfin] at h
        simp only [Except.ok.injEq, Prod.mk.injEq] at h
        obtain ⟨h1, h2⟩ := h
        exact ⟨h2 ▸ json_dump_pairs_sorted d2, h1.symm, hrun⟩

/-- The parsed show-query object of the worked example. -/
def jloadsExample : String → Option Dict := fun _ =>
  some [(ABBREVIATED_COMMIT_HASH, JVal.jstr "abc1234"),
        (COMMITER_DATE_STRICT, JVal.jstr "2024-01-15T10:30:00+00:00"),
        (COMMIT_HASH, JVal.jstr "abc1234beef")]

/-- Clean-tree environment whose two queries succeed. -/
def envCleanShow : GitEnv := ⟨⟨0, "", ""⟩, ⟨0, "showjson", ""⟩⟩

/-- The record the generator writes in the worked example, keys sorted. -/
def gitSortedExample : Dict :=
  [(ABBREVIATED_COMMIT_HASH, JVal.jstr "abc1234"),
   (ARTIFACT_VER, JVal.jstr "20240115.103000.0-shaabc1234"),
   (CAL_VER, JVal.jstr "20240115.103000.0"),
   (COMMIT_HASH, JVal.jstr "abc1234beef"),
   (COMMITER_DATE_STRICT, JVal.jstr "20240115T10:30:00Z"),
   (COMMITER_DATE_TIMESTAMP, JVal.jint 1705314600),
   (IS_DIRTY, JVal.jbool false)]

/-- Witness for C8: a full successful concrete run writing to stdout. -/
theorem gitMain_output_sorted_witness :
    List.Sorted (fun a b : String => strLe a b = true) (gitSortedExample.map Prod.fst) ∧
    OutDest.stdout = (if ("-" : String) = "-" then OutDest.stdout else OutDest.file "-") ∧
    gitInfoRun jloadsExample envCleanShow 0 0 "-" = (0, [(OutDest.stdout, gitSortedExample)]) :=
  gitMain_output_sorted jloadsExample envCleanShow 0 0 "-" OutDest.stdout gitSortedExample rfl

/-- C9: a status-query result (exit 0) reduces to exactly the single
field is_dirty, true iff the status command produced any output. -/
theorem parse_git_status_is_dirty (res : CapturedProc) (d : Dict)
    (h : parse_git_status res = Except.ok d) :
    d.map Prod.fst = [IS_DIRTY] ∧
    (dictGet d IS_DIRTY = some (JVal.jbool true) ↔ ¬res.stdout = "") ∧
    (dictGet d IS_DIRTY = some (JVal.jbool false) ↔ res.stdout = "") := by
  unfold parse_git_status check_returncode at h
  by_cases h0 : res.returncode = 0
  · rw [if_pos h0] at h
    dsimp only at h
    have hd : d = [(IS_DIRTY, JVal.jbool (pyTruthy res.stdout))] := (Except.ok.inj h).symm
    subst hd
    refine ⟨rfl, ?_, ?_⟩
    · rw [show dictGet [(IS_DIRTY, JVal.jbool (pyTruthy res.stdout))] IS_DIRTY =
          some (JVal.jbool (pyTruthy res.stdout)) from rfl]
      simp only [Option.some.injEq, JVal.jbool.injEq, pyTruthy, Bool.not_eq_eq_eq_not,
        Bool.not_true, String.isEmpty_iff]
      constructor
      · intro hx
        rw [← String.isEmpty_iff]
        intro hy
        rw [hy] at hx
        cases hx
      · intro hx
        cases hy : res.stdout.isEmpty with
        | false => rfl
        | true => exact absurd ((String.isEmpty_iff res.stdout).mp hy) hx
    · rw [show dictGet [(IS_DIRTY, JVal.jbool (pyTruthy res.stdout))] IS_DIRTY =
          some (JVal.jbool (pyTruthy res.stdout)) from rfl]
      simp only [Option.some.injEq, JVal.jbool.injEq, pyTruthy]
      constructor
      · intro hx
        have : res.stdout.isEmpty = true := by
          cases hy : res.stdout.isEmpty with
          | true => rfl
          | false => rw [hy] at hx; cases hx
        exact (String.isEmpty_iff res.stdout).mp this
      · intro hx
        rw [hx]
        rfl
  · rw [if_neg h0] at h
    dsimp only at h
    exact Except.noConfusion h

/-- Witness for C9: a status query with non-empty output yields
is_dirty true. -/
theorem parse_git_status_is_dirty_witness :
    ([(IS_DIRTY, JVal.jbool true)] : Dict).map Prod.fst = [IS_DIRTY] ∧
    (dictGet [(IS_DIRTY, JVal.jbool true)] IS_DIRTY = some (JVal.jbool true) ↔
      ¬(CapturedProc.mk 0 " M file" "").stdout = "") ∧
    (dictGet [(IS_DIRTY, JVal.jbool true)] IS_DIRTY = some (JVal.jbool false) ↔
      (CapturedProc.mk 0 " M file" "").stdout = "") :=
  parse_git_status_is_dirty ⟨0, " M file", ""⟩ [(IS_DIRTY, JVal.jbool true)] rfl

end GitInfo
